import Mathlib

/-!
Shallow embedding of the CML (Condition Monitoring Location) predictive
modeling pipeline: feature engineering (`src/backend/app/ml/preprocess.py`),
the elimination classifier (`src/backend/app/ml/model_elimination.py`),
the SHAP explainability engine (`src/backend/app/ml/explainability.py`) and
the thickness forecast engine (`src/backend/app/ml/model_forecast.py`).

Machine floats are modelled as exact rationals (ℚ); the square roots taken
by `numpy.std` and `sklearn.StandardScaler` produce irrational values, so
quantities derived from a square root live in ℝ, with the radicand kept as
an exact rational field of the result.
-/

/- ===================== Elimination classifier ======================
   `src/backend/app/ml/model_elimination.py`, class `CMLEliminationModel`. -/

/-- A CML record as consumed by `CMLEliminationModel.predict`: only the
identifier is inspected by `predict` itself; the feature fields are consumed
by the abstracted probability function (preprocessor + xgboost). -/
structure CML where
  cml_id : String
deriving DecidableEq

/-- One entry of the dictionary built by `CMLEliminationModel.predict`
(`model_elimination.py` lines 97-104). -/
structure PredResult where
  probability : ℚ
  confidence : ℚ
  recommendation : String
  threshold_used : ℚ
deriving DecidableEq

/-- The mutable state of a `CMLEliminationModel` instance: `model` (none =
untrained; a trained xgboost artifact is abstracted as an opaque identifier),
`preprocessor`, `feature_columns` and `metrics`
(`model_elimination.py` lines 20-23). -/
structure EliminationState where
  model : Option ℕ
  preprocessor : ℕ
  feature_columns : Option (List String)
  metrics : List (String × ℚ)
deriving DecidableEq

/-- `CMLEliminationModel.predict(cmls, threshold)`
(`model_elimination.py` lines 83-106).

`proba m c` abstracts the composite
`self.model.predict_proba(self.preprocessor.transform(cmls)[feature_columns])[:, 1]`
— the class-1 probability the trained artifact `m` assigns to record `c`;
the guard, the thresholding (`probabilities >= threshold`), the confidence
`max(p, 1-p)` and the result dictionary are embedded directly from the
source. -/
def predict (proba : ℕ → CML → ℚ) (st : EliminationState) (cmls : List CML)
    (threshold : ℚ) : Except String (List (String × PredResult)) :=
  match st.model with
  | none => .error "Model not trained or loaded"
  | some m =>
    .ok (cmls.map (fun c =>
      let p := proba m c
      (c.cml_id,
        { probability := p
          confidence := max p (1 - p)
          recommendation := if p ≥ threshold then "eliminate" else "keep"
          threshold_used := threshold })))

/-- Number of rows of a `predict` result whose recommendation is
`"eliminate"`; an error result contains no rows. -/
def countEliminate (r : Except String (List (String × PredResult))) : ℕ :=
  match r with
  | .error _ => 0
  | .ok rs => rs.countP (fun pr => pr.2.recommendation == "eliminate")

/-- C1: for a fixed probability function and record batch, raising the
threshold never increases the number of "eliminate" recommendations. -/
theorem predict_threshold_monotone (proba : ℕ → CML → ℚ) (st : EliminationState)
    (cmls : List CML) (t1 t2 : ℚ) (h : t1 ≤ t2) :
    countEliminate (predict proba st cmls t2) ≤
      countEliminate (predict proba st cmls t1) := by
  cases hm : st.model with
  | none => simp [predict, hm, countEliminate]
  | some m =>
    simp only [predict, hm, countEliminate, List.countP_map]
    apply List.countP_mono_left
    intro c _ hc
    simp only [Function.comp] at hc ⊢
    split at hc
    · next hp =>
      split
      · rfl
      · next hq => exact absurd (le_trans h hp) hq
    · simp at hc

/-- Witness for C1 at a concrete input. -/
theorem predict_threshold_monotone_witness :
    (1 : ℚ)/4 ≤ 3/4 ∧
    countEliminate (predict (fun _ _ => 1/2) ⟨some 0, 0, none, []⟩ [⟨"c1"⟩] (3/4)) ≤
      countEliminate (predict (fun _ _ => 1/2) ⟨some 0, 0, none, []⟩ [⟨"c1"⟩] (1/4)) :=
  ⟨by norm_num,
   predict_threshold_monotone (fun _ _ => 1/2) ⟨some 0, 0, none, []⟩ [⟨"c1"⟩]
     (1/4) (3/4) (by norm_num)⟩

/-- C6: calling `predict` when no model has been trained or loaded fails with
the explicit precondition error `"Model not trained or loaded"` raised by the
guard at `model_elimination.py` lines 85-86, producing no prediction results. -/
theorem predict_untrained_errors (proba : ℕ → CML → ℚ) (st : EliminationState)
    (cmls : List CML) (t : ℚ) (h : st.model = none) :
    predict proba st cmls t = .error "Model not trained or loaded" := by
  simp [predict, h]

/-- Witness for C6 at a concrete input. -/
theorem predict_untrained_errors_witness :
    (⟨none, 0, none, []⟩ : EliminationState).model = none ∧
    predict (fun _ _ => 1/2) ⟨none, 0, none, []⟩ [⟨"c1"⟩] (7/10) =
      .error "Model not trained or loaded" :=
  ⟨rfl, predict_untrained_errors (fun _ _ => 1/2) ⟨none, 0, none, []⟩ [⟨"c1"⟩]
    (7/10) rfl⟩

/- ===================== Label encoding ======================
   `src/backend/app/ml/preprocess.py`, `CMLPreprocessor.fit_transform`
   (lines 32-36) and `CMLPreprocessor.transform` (lines 53-60). -/

/-- `sklearn.LabelEncoder.fit` over a column of category strings: the fitted
`classes_` array is the sorted list of distinct values. -/
def fitClasses (xs : List String) : List String :=
  List.insertionSort (· ≤ ·) xs.dedup

/-- The encoding `CMLPreprocessor.transform` applies to one categorical cell
(`preprocess.py` lines 58-60): `le.transform([x])[0] if x in le.classes_
else -1`, where `le.transform` returns the index of `x` in the sorted
`classes_` array. -/
def encodeLabel (classes : List String) (x : String) : ℤ :=
  if x ∈ classes then (classes.indexOf x : ℤ) else -1

/-- C5: a categorical value unseen during fitting is encoded (not an error)
to the sentinel `-1`, which differs from the encoded value of every trained
category. -/
theorem transform_unseen_category_sentinel (train : List String) (x : String)
    (hx : x ∉ fitClasses train) :
    encodeLabel (fitClasses train) x = -1 ∧
    ∀ y ∈ fitClasses train, encodeLabel (fitClasses train) y ≠ -1 := by
  constructor
  · simp [encodeLabel, hx]
  · intro y hy
    simp only [encodeLabel, if_pos hy]
    omega

/-- Witness for C5 at a concrete input. -/
theorem transform_unseen_category_sentinel_witness :
    ("Propane" ∉ fitClasses ["Crude", "Diesel", "Crude"]) ∧
    (encodeLabel (fitClasses ["Crude", "Diesel", "Crude"]) "Propane" = -1 ∧
     ∀ y ∈ fitClasses ["Crude", "Diesel", "Crude"],
       encodeLabel (fitClasses ["Crude", "Diesel", "Crude"]) y ≠ -1) :=
  ⟨by simp +decide [fitClasses, List.insertionSort, List.orderedInsert,
      String.le_iff_toList_le],
   transform_unseen_category_sentinel ["Crude", "Diesel", "Crude"] "Propane"
     (by simp +decide [fitClasses, List.insertionSort, List.orderedInsert,
       String.le_iff_toList_le])⟩

/- ===================== Missing-value imputation ======================
   `src/backend/app/ml/preprocess.py`, `CMLPreprocessor._handle_missing_values`
   (lines 92-104), invoked on the current batch by both `fit_transform`
   (line 29) and `transform` (line 51); no imputation statistic is stored. -/

/-- pandas `Series.median()` with the default `skipna` semantics over the
non-missing values: mean of the two middle elements of the sorted column for
even length, the middle element for odd length, undefined (`NaN`) for an
empty column. -/
def medianQ (xs : List ℚ) : Option ℚ :=
  if xs = [] then none
  else
    let s := List.insertionSort (· ≤ ·) xs
    let n := s.length
    if n % 2 = 1 then some (s.getD (n / 2) 0)
    else some ((s.getD (n / 2 - 1) 0 + s.getD (n / 2) 0) / 2)

/-- pandas `Series.mode()[0]` over the non-missing values: the smallest of the
values attaining the maximal occurrence count (`mode()` returns the most
frequent values sorted ascending); `none` for an empty column. -/
def modeStr (xs : List String) : Option String :=
  xs.dedup.foldl (fun best v =>
    match best with
    | none => some v
    | some w =>
      if xs.count v > xs.count w ∨ (xs.count v = xs.count w ∧ v < w) then some v
      else some w) none

/-- `_handle_missing_values` on one numeric column (`preprocess.py` lines
95-97): `df[col].fillna(df[col].median(), inplace=True)` — each missing cell
is replaced by the median of the batch's own non-missing values; an
all-missing column stays missing (`fillna(NaN)`). -/
def handleMissingNumeric (col : List (Option ℚ)) : List (Option ℚ) :=
  let m := medianQ (col.filterMap id)
  col.map (fun x => match x with | some v => some v | none => m)

/-- `_handle_missing_values` on one categorical column (`preprocess.py` lines
100-102): `df[col].fillna(df[col].mode()[0] if not df[col].mode().empty else
'Unknown', inplace=True)` — each missing cell is replaced by the batch's own
mode, or by the literal `"Unknown"` when every cell is missing. -/
def handleMissingCategorical (col : List (Option String)) : List String :=
  let m := (modeStr (col.filterMap id)).getD "Unknown"
  col.map (fun x => x.getD m)

/-- C10: imputation in `transform` uses the statistics of the inference batch
itself — a missing numeric cell becomes the batch median, a missing
categorical cell the batch mode ("Unknown" when the whole column is missing),
non-missing cells are untouched — and the same missing record is imputed
differently in two different batches. -/
theorem transform_imputes_per_batch :
    (∀ (col : List (Option ℚ)) (i : ℕ), col[i]? = some none →
      (handleMissingNumeric col)[i]? = some (medianQ (col.filterMap id))) ∧
    (∀ (col : List (Option ℚ)) (i : ℕ) (v : ℚ), col[i]? = some (some v) →
      (handleMissingNumeric col)[i]? = some (some v)) ∧
    (∀ (col : List (Option String)) (i : ℕ), col[i]? = some none →
      (handleMissingCategorical col)[i]? =
        some ((modeStr (col.filterMap id)).getD "Unknown")) ∧
    handleMissingNumeric [none, some 1, some 3] = [some 2, some 1, some 3] ∧
    handleMissingNumeric [none, some 5, some 7] = [some 6, some 5, some 7] ∧
    (handleMissingNumeric [none, some 1, some 3])[0]? ≠
      (handleMissingNumeric [none, some 5, some 7])[0]? ∧
    handleMissingCategorical [none, none] = ["Unknown", "Unknown"] := by
  refine ⟨?_, ?_, ?_, ?_, ?_, ?_, ?_⟩
  · intro col i h
    simp [handleMissingNumeric, List.getElem?_map, h]
  · intro col i v h
    simp [handleMissingNumeric, List.getElem?_map, h]
  · intro col i h
    simp [handleMissingCategorical, List.getElem?_map, h]
  · norm_num [handleMissingNumeric, List.filterMap_cons, medianQ,
      List.insertionSort, List.orderedInsert]
    rintro ⟨⟩
  · norm_num [handleMissingNumeric, List.filterMap_cons, medianQ,
      List.insertionSort, List.orderedInsert]
    rintro ⟨⟩
  · norm_num [handleMissingNumeric, List.filterMap_cons, medianQ,
      List.insertionSort, List.orderedInsert]
    simp
  · norm_num [handleMissingCategorical, List.filterMap_cons, modeStr]

/-- Witness for C10 at a concrete input. -/
theorem transform_imputes_per_batch_witness :
    ([none, some (2:ℚ)][0]? = some none) ∧
    (handleMissingNumeric [none, some 2])[0]? =
      some (medianQ ([none, some 2].filterMap id)) :=
  ⟨rfl, transform_imputes_per_batch.1 [none, some 2] 0 rfl⟩

/- ===================== Numeric scaling and engineered features ==============
   `src/backend/app/ml/preprocess.py`: `fit_transform` (lines 24-46) imputes
   (line 29), scales the numeric columns with `StandardScaler.fit_transform`
   (lines 39-41) and only then calls `_engineer_features` (line 44), so the
   engineered features of lines 106-124 are computed on the *scaled* numeric
   columns. -/

/-- Column mean, as computed by `sklearn.StandardScaler.fit`. -/
def meanQ (xs : List ℚ) : ℚ := xs.sum / (xs.length : ℚ)

/-- Population variance (`ddof = 0`), as computed by
`sklearn.StandardScaler.fit`. -/
def varQ (xs : List ℚ) : ℚ :=
  ((xs.map (fun x => (x - meanQ xs) ^ 2)).sum) / (xs.length : ℚ)

/-- The fitted `StandardScaler.scale_` of one column: the square root of the
population variance, with an exact zero replaced by 1
(`sklearn.preprocessing._data._handle_zeros_in_scale`). -/
noncomputable def scaleOf (xs : List ℚ) : ℝ :=
  if varQ xs = 0 then 1 else Real.sqrt (varQ xs)

/-- `StandardScaler.fit_transform` on one numeric column:
`(x - mean) / scale_` per cell. -/
noncomputable def standardize (xs : List ℚ) : List ℝ :=
  xs.map (fun x => ((x : ℝ) - (meanQ xs : ℝ)) / scaleOf xs)

/-- The `thickness_ratio` column produced by `CMLPreprocessor.fit_transform`
for a batch of `(design_thickness_mm, current_thickness_mm)` pairs with no
missing values (on such a batch the imputation step of line 29 is the
identity).  Following the source order, both thickness columns are first
standardized (lines 39-41) and only afterwards does `_engineer_features`
(line 114) compute
`df['current_thickness_mm'] / (df['design_thickness_mm'] + 1e-6)` — i.e. the
ratio of the *scaled* values. -/
noncomputable def fitTransformThicknessRatio (records : List (ℚ × ℚ)) :
    List ℝ :=
  let design := standardize (records.map Prod.fst)
  let current := standardize (records.map Prod.snd)
  List.zipWith (fun c d => c / (d + 1e-6)) current design

/-- The thickness ratio as the specification words it
(`thickness_ratio = current_thickness / (design_thickness + ε)`, ε = 1e-6,
on the record's raw thicknesses); kept separate, for comparison with the
value the source actually produces. -/
def thicknessRatioSpec (design current : ℚ) : ℚ := current / (design + 1e-6)

/-- C2 (divergence evidence): on the batch containing the single record with
`design_thickness_mm = 10.0` and `current_thickness_mm = 10.0`, the code's
`fit_transform` yields `thickness_ratio = 0` (the standardized cells are 0,
so the ratio is `0 / (0 + 1e-6)`), far from the `≈ 1.0` the specification's
raw-value formula gives for the same record. -/
theorem fit_transform_thickness_ratio_zero_not_one :
    fitTransformThicknessRatio [(10, 10)] = [0] ∧
    |thicknessRatioSpec 10 10 - 1| < 1/1000 ∧
    ¬ |(0 : ℝ) - 1| < 1/1000 := by
  refine ⟨?_, ?_, ?_⟩
  · have hvar : varQ [10] = 0 := by norm_num [varQ, meanQ]
    simp [fitTransformThicknessRatio, standardize, scaleOf, hvar, meanQ]
  · rw [show thicknessRatioSpec 10 10 = 10000000/10000001 by
      norm_num [thicknessRatioSpec]]
    rw [abs_sub_lt_iff]
    norm_num
  · norm_num

/- ===================== Forecast engine ======================
   `src/backend/app/ml/model_forecast.py`, class `CMLForecastModel`.
   Dates are modelled as whole days (`ℤ`), matching the source's
   `(d - df['ds'].min()).days` arithmetic and `timedelta(days=30*i)` steps. -/

/-- One row of the returned forecast frame (`ds`, `yhat`, `yhat_lower`,
`yhat_upper`).  The point estimate is exact; `var` records the population
variance of the in-sample residuals, of which `numpy.std` takes the square
root for the interval margin, so the lower/upper bounds are derived values
in ℝ. -/
structure ForecastRow where
  ds : ℤ
  yhat : ℚ
  var : ℚ
deriving DecidableEq

/-- `yhat_lower = yhat - 1.96 * std(residuals)`
(`model_forecast.py` lines 88-96). -/
noncomputable def ForecastRow.yhat_lower (r : ForecastRow) : ℝ :=
  (r.yhat : ℝ) - 1.96 * Real.sqrt (r.var : ℝ)

/-- `yhat_upper = yhat + 1.96 * std(residuals)`
(`model_forecast.py` lines 88-96). -/
noncomputable def ForecastRow.yhat_upper (r : ForecastRow) : ℝ :=
  (r.yhat : ℝ) + 1.96 * Real.sqrt (r.var : ℝ)

/-- `df['ds'].min()` over the historical series (0 for an empty frame, where
pandas would give `NaT`; only used under a nonempty history). -/
def minDs (hist : List (ℤ × ℚ)) : ℤ :=
  match hist with
  | [] => 0
  | h :: t => (t.map Prod.fst).foldl min h.1

/-- `df['ds'].max()` over the historical series (0 for an empty frame, where
pandas would give `NaT`; only used under a nonempty history). -/
def maxDs (hist : List (ℤ × ℚ)) : ℤ :=
  match hist with
  | [] => 0
  | h :: t => (t.map Prod.fst).foldl max h.1

/-- `CMLForecastModel._linear_forecast(df, periods)` (`model_forecast.py`
lines 64-99): ordinary least squares of thickness against days elapsed since
the first observation (`sklearn.LinearRegression` with an intercept: slope
`sxy/sxx`, or 0 — the minimum-norm solution — when the centred design is
identically zero), future dates at `last_date + 30*i` days for
`i = 1..periods`, point estimates from the fitted line, and the residual
variance for the `± 1.96 * std(residuals)` interval.  The call fails (`none`)
exactly when the history is empty: `LinearRegression.fit` raises on an array
of 0 samples, and that exception is outside any `try` in the source. -/
def linearForecast (hist : List (ℤ × ℚ)) (periods : ℕ) :
    Option (List ForecastRow) :=
  match hist with
  | [] => none
  | _ :: _ =>
    let days : List ℚ := hist.map (fun p => ((p.1 - minDs hist : ℤ) : ℚ))
    let ys : List ℚ := hist.map Prod.snd
    let n : ℚ := (hist.length : ℚ)
    let xm := days.sum / n
    let ym := ys.sum / n
    let sxx := (days.map (fun x => (x - xm) ^ 2)).sum
    let sxy := (List.zipWith (fun x y => (x - xm) * (y - ym)) days ys).sum
    let slope := if sxx = 0 then 0 else sxy / sxx
    let intercept := ym - slope * xm
    let residVar :=
      ((List.zipWith (fun x y => (y - (intercept + slope * x)) ^ 2) days
        ys).sum) / n
    some ((List.range periods).map (fun i =>
      let d : ℤ := maxDs hist + 30 * ((i : ℤ) + 1)
      { ds := d
        yhat := intercept + slope * ((d - minDs hist : ℤ) : ℚ)
        var := residVar }))

/-- `CMLForecastModel._prophet_forecast(df, periods)` (`model_forecast.py`
lines 34-62).  The Prophet library itself is external: `prophetRaw` stands
for the frame `model.predict(future)[['ds','yhat','yhat_lower','yhat_upper']]`
when the `try` block succeeds, and `none` when anything in it raises.  On
success the source keeps only the rows with `ds > df['ds'].max()`; on any
failure it falls back to `_linear_forecast`. -/
def prophetForecast (prophetRaw : Option (List ForecastRow))
    (hist : List (ℤ × ℚ)) (periods : ℕ) : Option (List ForecastRow) :=
  match prophetRaw with
  | some rows => some (rows.filter (fun r => maxDs hist < r.ds))
  | none => linearForecast hist periods

/-- The model-type flag of `CMLForecastModel.__init__`
(`model_forecast.py` line 12). -/
inductive ForecastModelType
  | prophet
  | linear
  | arima
deriving DecidableEq

/-- `CMLForecastModel.predict(historical_data, periods)` (`model_forecast.py`
lines 16-32): dispatch on `model_type` — `'prophet'` uses the seasonal
strategy with its internal fallback, `'linear'` and anything else use the
linear forecast directly. -/
def forecastPredict (mt : ForecastModelType)
    (prophetRaw : Option (List ForecastRow)) (hist : List (ℤ × ℚ))
    (periods : ℕ) : Option (List ForecastRow) :=
  match mt with
  | .prophet => prophetForecast prophetRaw hist periods
  | .linear => linearForecast hist periods
  | .arima => linearForecast hist periods

/-- Every row produced by `_linear_forecast` is dated after the last
observation: future dates are `last_date + 30*i` for `i ≥ 1`. -/
theorem linearForecast_rows_after (hist : List (ℤ × ℚ)) (periods : ℕ)
    (rows : List ForecastRow) (hr : linearForecast hist periods = some rows) :
    ∀ r ∈ rows, maxDs hist < r.ds := by
  match hist with
  | [] => simp [linearForecast] at hr
  | h :: t =>
    simp only [linearForecast, Option.some.injEq] at hr
    subst hr
    intro r hr
    rw [List.mem_map] at hr
    obtain ⟨i, hi2, hf⟩ := hr
    subst hf
    obtain ⟨a, ha, rfl⟩ : ∃ a : ℕ, a < periods ∧ i = (a : ℤ) := by
      simpa using hi2
    show maxDs (h :: t) < maxDs (h :: t) + 30 * ((a : ℤ) + 1)
    omega

/-- C3: every forecast row returned by `CMLForecastModel.predict` — whether
from the prophet path's filtered frame or from the linear fallback — has a
date strictly greater than the maximum date of the supplied historical
series. -/
theorem forecast_dates_after_history (mt : ForecastModelType)
    (prophetRaw : Option (List ForecastRow)) (hist : List (ℤ × ℚ))
    (periods : ℕ) (rows : List ForecastRow) (_hne : hist ≠ [])
    (hr : forecastPredict mt prophetRaw hist periods = some rows) :
    ∀ r ∈ rows, maxDs hist < r.ds := by
  cases mt with
  | prophet =>
    cases prophetRaw with
    | some raws =>
      simp only [forecastPredict, prophetForecast, Option.some.injEq] at hr
      subst hr
      intro r hrr
      exact of_decide_eq_true (List.mem_filter.mp hrr).2
    | none =>
      simp only [forecastPredict, prophetForecast] at hr
      exact linearForecast_rows_after hist periods rows hr
  | linear =>
    simp only [forecastPredict] at hr
    exact linearForecast_rows_after hist periods rows hr
  | arima =>
    simp only [forecastPredict] at hr
    exact linearForecast_rows_after hist periods rows hr

/-- Witness for C3 at a concrete input (prophet path returning one raw row,
whose date survives the `ds > max` filter). -/
theorem forecast_dates_after_history_witness :
    ([((0:ℤ), (10:ℚ))] ≠ []) ∧
    (forecastPredict .prophet (some [⟨100, 5, 0⟩]) [(0, 10)] 24 =
      some [⟨100, 5, 0⟩]) ∧
    ∀ r ∈ [(⟨100, 5, 0⟩ : ForecastRow)], maxDs [((0:ℤ), (10:ℚ))] < r.ds :=
  ⟨by simp, by rfl,
   forecast_dates_after_history .prophet (some [⟨100, 5, 0⟩]) [(0, 10)] 24
     [⟨100, 5, 0⟩] (by simp) (by rfl)⟩

/-- C4 counterexample: a historical series with exactly one point — fewer
than 2 — does *not* make the forecast fail: Prophet's failure is absorbed,
and the linear fallback fits one sample without error (sklearn's
minimum-norm solution: slope 0, intercept 10, zero residuals), returning a
constant forecast with zero-width intervals. -/
theorem forecast_single_point_succeeds :
    forecastPredict .prophet none [(0, 10)] 2 =
      some [⟨30, 10, 0⟩, ⟨60, 10, 0⟩] := by
  norm_num [forecastPredict, prophetForecast, linearForecast, minDs, maxDs,
    List.range_succ]

/-- C4 amended: the only history a forecast call fails on is the *empty*
series (where `LinearRegression.fit` raises on 0 samples, outside any `try`,
so the fallback's failure is the one that propagates); every nonempty series
— including a single point — succeeds. -/
theorem forecast_failure_iff_empty_history :
    (∀ periods : ℕ, linearForecast [] periods = none) ∧
    (∀ (hist : List (ℤ × ℚ)) (periods : ℕ), hist ≠ [] →
      (linearForecast hist periods).isSome) ∧
    (∀ (hist : List (ℤ × ℚ)) (periods : ℕ),
      forecastPredict .prophet none hist periods =
        linearForecast hist periods) := by
  refine ⟨fun _ => rfl, ?_, fun _ _ => rfl⟩
  intro hist periods hne
  match hist with
  | [] => exact absurd rfl hne
  | h :: t => rfl

/-- Witness for the amended C4 theorem at a concrete input. -/
theorem forecast_failure_iff_empty_history_witness :
    ([((0:ℤ), (5:ℚ))] ≠ []) ∧ (linearForecast [((0:ℤ), (5:ℚ))] 3).isSome :=
  ⟨by simp, forecast_failure_iff_empty_history.2.1 [(0, 5)] 3 (by simp)⟩

/-- First forecast row of the C9 scenario: 30 days after 2022-01-01. -/
def scenarioRow1 : ForecastRow := ⟨761, 6346912/801542, 1/2404626⟩

/-- Second forecast row of the C9 scenario: 60 days after 2022-01-01. -/
def scenarioRow2 : ForecastRow := ⟨791, 6281122/801542, 1/2404626⟩

/-- A forecast row whose residual variance is positive has strict interval
bounds: `yhat - 1.96*std < yhat < yhat + 1.96*std`. -/
theorem row_interval_strict (r : ForecastRow) (h : 0 < r.var) :
    r.yhat_lower < (r.yhat : ℝ) ∧ (r.yhat : ℝ) < r.yhat_upper := by
  have hv : (0:ℝ) < (r.var : ℝ) := by exact_mod_cast h
  have hs : 0 < Real.sqrt (r.var : ℝ) := Real.sqrt_pos.mpr hv
  constructor
  · simp only [ForecastRow.yhat_lower]
    nlinarith [hs]
  · simp only [ForecastRow.yhat_upper]
    nlinarith [hs]

/-- C9: the scenario series [(2020-01, 10.0), (2021-01, 9.0), (2022-01, 8.0)]
— day numbers 0, 366, 731, 2020 being a leap year — with horizon 2 makes the
linear fallback return exactly 2 rows, dated 30 and 60 days after the last
observation (strictly increasing), and because the three points are not
collinear over day-space the residual variance is the positive 1/2404626,
so `yhat_lower < yhat < yhat_upper` holds strictly for both rows. -/
theorem linear_forecast_scenario :
    linearForecast [(0, 10), (366, 9), (731, 8)] 2 =
      some [scenarioRow1, scenarioRow2] ∧
    scenarioRow1.ds < scenarioRow2.ds ∧
    (scenarioRow1.yhat_lower < (scenarioRow1.yhat : ℝ) ∧
      (scenarioRow1.yhat : ℝ) < scenarioRow1.yhat_upper) ∧
    (scenarioRow2.yhat_lower < (scenarioRow2.yhat : ℝ) ∧
      (scenarioRow2.yhat : ℝ) < scenarioRow2.yhat_upper) := by
  refine ⟨?_, by norm_num [scenarioRow1, scenarioRow2], ?_, ?_⟩
  · norm_num [linearForecast, minDs, maxDs, List.range_succ, scenarioRow1,
      scenarioRow2]
  · exact row_interval_strict scenarioRow1 (by norm_num [scenarioRow1])
  · exact row_interval_strict scenarioRow2 (by norm_num [scenarioRow2])

/- ===================== Explainability engine ======================
   `src/backend/app/ml/explainability.py`, class `ModelExplainer`. -/

/-- The raw `shap_values` returned by `shap.TreeExplainer.shap_values`
(`explainability.py` line 43): either a single per-row matrix, or a Python
list with one matrix per class for a binary classifier — the shape the
`isinstance(shap_values, list)` branch of lines 46-47 distinguishes. -/
inductive ShapValuesOut
  | single (rows : List (List ℚ))
  | perClass (class0 class1 : List (List ℚ))
deriving DecidableEq

/-- The raw `explainer.expected_value` (`explainability.py` line 50): a
scalar or a per-class array, the shape the `isinstance(base_value,
np.ndarray)` branch of lines 51-52 distinguishes. -/
inductive BaseValueOut
  | scalar (b : ℚ)
  | perClass (b0 b1 : ℚ)
deriving DecidableEq

/-- `explainability.py` lines 46-47: `if isinstance(shap_values, list):
shap_values = shap_values[1]` — the positive-class matrix. -/
def selectShap : ShapValuesOut → List (List ℚ)
  | .single rows => rows
  | .perClass _ c1 => c1

/-- `explainability.py` lines 50-52: `base_value = base_value[1]` when the
expected value is per-class. -/
def selectBase : BaseValueOut → ℚ
  | .scalar b => b
  | .perClass _ b1 => b1

/-- `dict(pairs)` with Python semantics: one entry per key; a later duplicate
key overwrites the value, keeping the first occurrence's position. -/
def pyDict (ps : List (String × ℚ)) : List (String × ℚ) :=
  ps.foldl (fun acc p =>
    if acc.any (fun q => q.1 == p.1)
    then acc.map (fun q => if q.1 == p.1 then (q.1, p.2) else q)
    else acc ++ [p]) []

/-- One element of the `explanations` list built by
`ModelExplainer.explain_prediction` (`explainability.py` lines 64-72):
the per-feature attribution dictionary, the top-5 features by absolute
impact, and the base value.  The `explanation` sentence of
`_create_explanation` is a textual rendering of `top_features` and carries
no further numeric content. -/
structure Explanation where
  shap_values : List (String × ℚ)
  top_features : List (String × ℚ)
  base_value : ℚ
deriving DecidableEq

/-- `ModelExplainer.explain_prediction(X, feature_names)`
(`explainability.py` lines 41-77) for an initialized explainer whose SHAP
call does not raise: select the positive-class attribution matrix and base
value, then for each row build `dict(zip(feature_names, shap_values[i]))`,
sort the contributions by `abs` descending (Python's stable sort) and keep
the top 5. -/
def explainPrediction (shapOut : ShapValuesOut) (baseOut : BaseValueOut)
    (feature_names : List String) : List Explanation :=
  (selectShap shapOut).map (fun row =>
    let contribs := feature_names.zip row
    let sorted := List.insertionSort (fun a b => |b.2| ≤ |a.2|) contribs
    { shap_values := pyDict contribs
      top_features := sorted.take 5
      base_value := selectBase baseOut })

/-- `pyDict` over pairs with pairwise-distinct keys is the identity (the
fold only ever appends). -/
theorem pyDict_loop_eq (ps : List (String × ℚ)) :
    ∀ acc : List (String × ℚ), ((ps.map Prod.fst).Nodup) →
    (∀ p ∈ ps, ∀ q ∈ acc, q.1 ≠ p.1) →
    ps.foldl (fun acc p =>
      if acc.any (fun q => q.1 == p.1)
      then acc.map (fun q => if q.1 == p.1 then (q.1, p.2) else q)
      else acc ++ [p]) acc = acc ++ ps := by
  induction ps with
  | nil => intro acc _ _; simp
  | cons p rest ih =>
    intro acc hd hdisj
    simp only [List.foldl_cons]
    have hnone : acc.any (fun q => q.1 == p.1) = false := by
      simp only [List.any_eq_false]
      intro q hq
      simpa using hdisj p (by simp) q hq
    rw [hnone]
    simp only [Bool.false_eq_true, if_false]
    rw [ih (acc ++ [p]) (by simpa using (List.nodup_cons.mp (by simpa using hd)).2) ?_]
    · simp
    · intro r hr q hq
      rcases List.mem_append.mp hq with hq | hq
      · exact hdisj r (List.mem_cons_of_mem _ hr) q hq
      · have hqp : q = p := by simpa using hq
        rw [hqp]
        have hp1 : p.1 ∉ rest.map Prod.fst :=
          (List.nodup_cons.mp (by simpa using hd)).1
        intro hc
        exact hp1 (by rw [hc]; exact List.mem_map_of_mem Prod.fst hr)

/-- `pyDict ps = ps` when the keys of `ps` are pairwise distinct. -/
theorem pyDict_eq_self (ps : List (String × ℚ)) (h : (ps.map Prod.fst).Nodup) :
    pyDict ps = ps := by
  have := pyDict_loop_eq ps [] h (by simp)
  simpa [pyDict] using this

/-- C7: `explain_prediction` preserves additive-attribution completeness.
If the library's selected positive-class rows satisfy SHAP's additivity
contract `base + Σ row = model_output(i)`, then every explanation the engine
returns satisfies `base_value + Σ (per-feature attributions) = model_output(i)`
exactly (the `dict(zip(...))` construction loses no attribution mass when the
feature names are pairwise distinct and one per column), and for a binary
classifier the class-1 ("eliminate") attribution set and base value are the
ones selected, consistently. -/
theorem explain_additivity (shapOut : ShapValuesOut) (baseOut : BaseValueOut)
    (names : List String) (output : ℕ → ℚ)
    (hnd : names.Nodup)
    (hlen : ∀ row ∈ selectShap shapOut, row.length = names.length)
    (hadd : ∀ i (h : i < (selectShap shapOut).length),
      selectBase baseOut + (selectShap shapOut)[i].sum = output i) :
    (∀ i (h : i < (explainPrediction shapOut baseOut names).length),
      (explainPrediction shapOut baseOut names)[i].base_value +
        ((explainPrediction shapOut baseOut names)[i].shap_values.map
          Prod.snd).sum = output i) ∧
    (∀ c0 c1, selectShap (.perClass c0 c1) = c1) ∧
    (∀ b0 b1, selectBase (.perClass b0 b1) = b1) := by
  refine ⟨?_, fun c0 c1 => rfl, fun b0 b1 => rfl⟩
  intro i h
  have hi : i < (selectShap shapOut).length := by
    simpa [explainPrediction] using h
  have hrow : (selectShap shapOut)[i].length = names.length :=
    hlen _ (List.getElem_mem hi)
  simp only [explainPrediction, List.getElem_map]
  rw [pyDict_eq_self]
  · rw [List.map_snd_zip _ _ (le_of_eq hrow)]
    exact hadd i hi
  · rw [List.map_fst_zip _ _ (le_of_eq hrow.symm)]
    exact hnd

/-- Witness for C7 at a concrete input: two features, a binary classifier's
per-class SHAP output, positive-class base 1/2 and row [1, 2], model output
7/2. -/
theorem explain_additivity_witness :
    ((["a", "b"] : List String).Nodup) ∧
    (∀ row ∈ selectShap (.perClass [[0, 0]] [[(1:ℚ), 2]]),
      row.length = (["a", "b"] : List String).length) ∧
    (∀ i (h : i < (selectShap (.perClass [[0, 0]] [[(1:ℚ), 2]])).length),
      selectBase (.perClass 0 (1/2)) +
        (selectShap (.perClass [[0, 0]] [[(1:ℚ), 2]]))[i].sum =
        (fun _ => (7:ℚ)/2) i) ∧
    (∀ i (h : i <
        (explainPrediction (.perClass [[0, 0]] [[(1:ℚ), 2]])
          (.perClass 0 (1/2)) ["a", "b"]).length),
      (explainPrediction (.perClass [[0, 0]] [[(1:ℚ), 2]])
          (.perClass 0 (1/2)) ["a", "b"])[i].base_value +
        ((explainPrediction (.perClass [[0, 0]] [[(1:ℚ), 2]])
          (.perClass 0 (1/2)) ["a", "b"])[i].shap_values.map
            Prod.snd).sum = (fun _ => (7:ℚ)/2) i) := by
  have h1 : ((["a", "b"] : List String).Nodup) := by simp
  have h2 : (∀ row ∈ selectShap (.perClass [[0, 0]] [[(1:ℚ), 2]]),
      row.length = (["a", "b"] : List String).length) := by
    intro row hr
    simp only [selectShap, List.mem_singleton] at hr
    subst hr
    rfl
  have h3 : (∀ i (h : i < (selectShap (.perClass [[0, 0]] [[(1:ℚ), 2]])).length),
      selectBase (.perClass 0 (1/2)) +
        (selectShap (.perClass [[0, 0]] [[(1:ℚ), 2]]))[i].sum =
        (fun _ => (7:ℚ)/2) i) := by
    intro i h
    have h0 : i = 0 := by simpa [selectShap] using h
    subst h0
    norm_num [selectShap, selectBase]
  exact ⟨h1, h2, h3,
    (explain_additivity (.perClass [[0, 0]] [[(1:ℚ), 2]]) (.perClass 0 (1/2))
      ["a", "b"] (fun _ => (7:ℚ)/2) h1 h2 h3).1⟩

/- ===================== Artifact persistence ======================
   `src/backend/app/ml/model_elimination.py`, `save_model` (lines 120-134)
   and `load_model` (lines 136-149). -/

/-- The unpickled bundle dictionary written by `save_model`
(`model_elimination.py` lines 124-129).  A corrupt or partial bundle is one
with entries missing (`none`); accessing a missing entry with `[...]` raises
`KeyError`. -/
structure ModelBundle where
  model : Option ℕ
  preprocessor : Option ℕ
  feature_columns : Option (List String)
  metrics : Option (List (String × ℚ))
deriving DecidableEq

/-- `CMLEliminationModel.load_model` (`model_elimination.py` lines 136-149).
`file` is the outcome of `open` + `pickle.load`: `none` when either raises
(missing file, undecodable bytes).  The four field assignments of lines
142-145 run sequentially inside the `try`; a missing dictionary key raises
`KeyError` at its own access, which the bare `except` absorbs after logging
a warning — leaving the fields assigned *before* that point overwritten and
the rest untouched.  `metrics` is read with `.get('metrics', {})`, which
cannot raise and defaults to the empty dict. -/
def load_model (st : EliminationState) (file : Option ModelBundle) :
    EliminationState :=
  match file with
  | none => st
  | some b =>
    match b.model with
    | none => st
    | some m =>
      match b.preprocessor with
      | none => { st with model := some m }
      | some p =>
        match b.feature_columns with
        | none => { st with model := some m, preprocessor := p }
        | some fc =>
          { model := some m, preprocessor := p, feature_columns := some fc,
            metrics := b.metrics.getD [] }

/-- C8 counterexample: loading a corrupt bundle that contains a `model`
entry but lacks the `preprocessor` entry overwrites `model` and keeps the
old remaining fields — the in-memory state after this failed load is *not*
the prior state. -/
theorem load_partial_bundle_overwrites :
    load_model ⟨some 1, 2, some ["f"], [("accuracy", 1)]⟩
        (some ⟨some 7, none, none, none⟩) ≠
      ⟨some 1, 2, some ["f"], [("accuracy", 1)]⟩ := by
  simp [load_model]

/-- C8 amended: failures *before the first assignment* — unreadable or
unpicklable file, bundle without a `model` key — leave the state exactly as
it was; but a bundle whose keys run out part-way leaves the state partially
overwritten, field by field in assignment order, and a bundle with the
first three keys and no `metrics` loads with `metrics` reset to empty. -/
theorem load_model_failure_semantics (st : EliminationState)
    (b : ModelBundle) :
    (load_model st none = st) ∧
    (b.model = none → load_model st (some b) = st) ∧
    (∀ m, b.model = some m → b.preprocessor = none →
      load_model st (some b) = { st with model := some m }) ∧
    (∀ m p, b.model = some m → b.preprocessor = some p →
      b.feature_columns = none →
      load_model st (some b) =
        { st with model := some m, preprocessor := p }) ∧
    (∀ m p fc, b.model = some m → b.preprocessor = some p →
      b.feature_columns = some fc →
      load_model st (some b) =
        ⟨some m, p, some fc, b.metrics.getD []⟩) := by
  refine ⟨rfl, ?_, ?_, ?_, ?_⟩
  · intro hm
    simp [load_model, hm]
  · intro m hm hp
    simp [load_model, hm, hp]
  · intro m p hm hp hf
    simp [load_model, hm, hp, hf]
  · intro m p fc hm hp hf
    simp [load_model, hm, hp, hf]

/-- Witness for the amended C8 theorem at a concrete input. -/
theorem load_model_failure_semantics_witness :
    ((⟨some 7, none, none, none⟩ : ModelBundle).model = some 7) ∧
    ((⟨some 7, none, none, none⟩ : ModelBundle).preprocessor = none) ∧
    load_model ⟨some 1, 2, some ["f"], [("accuracy", 1)]⟩
        (some ⟨some 7, none, none, none⟩) =
      ⟨some 7, 2, some ["f"], [("accuracy", 1)]⟩ :=
  ⟨rfl, rfl,
   (load_model_failure_semantics ⟨some 1, 2, some ["f"], [("accuracy", 1)]⟩
     ⟨some 7, none, none, none⟩).2.2.1 7 rfl rfl⟩
